import Mathlib

/-!
Shallow embedding of the wckc legacy-data migration scripts
(`supabase-salesorders-fast.py`, `supabase-testrun.py`, `testrun.py`,
`migration_utils.py`, `supabase-service-fast.py`, `supabase-service.py`,
`migrate-lookups.py`, `migrate-clients.py`), together with theorems that
settle the specification claims about field normalization, stage and
ship-status derivation, service-order skipping, reference-table
deduplication, and the bulk loader's key alignment and commit behaviour.

External collaborators are abstracted as parameters: the pandas date
parser `pd.to_datetime(s, dayfirst=True)` becomes a function
`String → Option PyDateTime` (with `none` standing for a raised
exception), and the target store's generated surrogate keys become
sequential identifiers starting from arbitrary per-table offsets,
matching `INSERT ... RETURNING id` on serial columns.
-/

namespace Wckc

/-- A calendar timestamp, standing for a Python `datetime` value
(hour, minute and second are omitted: the scripts never inspect them). -/
structure PyDateTime where
  year : Nat
  month : Nat
  day : Nat
deriving DecidableEq

/-- The fixed sentinel `datetime(1999, 9, 19)` the scripts use for
"done / entered, exact date unknown". -/
def sentinelDate : PyDateTime := ⟨1999, 9, 19⟩

/-- One spreadsheet cell as the scripts receive it from pandas:
`pynone` is Python `None`, `nan` is a float NaN (pandas' missing-value
marker), `str` a string cell, and `dt` an already-typed datetime cell. -/
inductive Cell where
  | pynone
  | nan
  | str (s : String)
  | dt (d : PyDateTime)
deriving DecidableEq

/-- Python's `str(...)` rendering of a datetime, e.g. "1999-9-19 00:00:00".
Only its being a non-empty string that is not "nan" matters below. -/
def pyStrDT (d : PyDateTime) : String :=
  toString d.year ++ "-" ++ toString d.month ++ "-" ++ toString d.day ++ " 00:00:00"

/-- Python's `str(val)` on a cell: `str(None) = "None"`,
`str(float('nan')) = "nan"`, strings render as themselves. -/
def pyStrCell : Cell → String
  | Cell.pynone => "None"
  | Cell.nan => "nan"
  | Cell.str s => s
  | Cell.dt d => pyStrDT d

/-- pandas' `pd.isna`: true exactly on `None` and NaN cells. -/
def pdIsna : Cell → Bool
  | Cell.pynone => true
  | Cell.nan => true
  | Cell.str _ => false
  | Cell.dt _ => false

/-- Python's `str.strip()`: drop whitespace from both ends. -/
def pyStrip (s : String) : String :=
  ⟨(((s.data.dropWhile Char.isWhitespace).reverse).dropWhile Char.isWhitespace).reverse⟩

/-- Python's `str.lower()`, character by character. -/
def pyLower (s : String) : String :=
  ⟨s.data.map Char.toLower⟩

/-- Python's `str.upper()`, character by character. -/
def pyUpper (s : String) : String :=
  ⟨s.data.map Char.toUpper⟩

/-- Python's `s.split('-', 1)`: the text before the first hyphen, and
(when a hyphen is present) the remainder after it. -/
def pySplit1 (s : String) : String × Option String :=
  if s.data.contains '-' then
    (⟨s.data.takeWhile (fun ch => ch ≠ '-')⟩,
     some ⟨(s.data.dropWhile (fun ch => ch ≠ '-')).drop 1⟩)
  else (s, none)

/-- The numeric value of a non-empty all-digit character list; `none`
otherwise. -/
def pyDigitsToNat (l : List Char) : Option Nat :=
  if l ≠ [] ∧ l.all Char.isDigit then
    some (l.foldl (fun a c => a * 10 + (c.toNat - 48)) 0)
  else none

/-- Python's `int(s)` on a string: strips, allows an optional leading
minus sign, otherwise digits only; `none` models a raised `ValueError`. -/
def pyIntOfString (t : String) : Option Int :=
  match (pyStrip t).data with
  | '-' :: rest => (pyDigitsToNat rest).map (fun n => -(n : Int))
  | u => (pyDigitsToNat u).map (fun n => (n : Int))

/-- Splitting a character list at every occurrence of a separator. -/
def splitOnChar (c : Char) : List Char → List (List Char)
  | [] => [[]]
  | x :: xs =>
    if x = c then [] :: splitOnChar c xs
    else
      match splitOnChar c xs with
      | [] => [[x]]
      | g :: gs => (x :: g) :: gs

/-- Python's `int(float(v))` on a string, rendered for plain decimal
literals (optional sign, digits, optional fractional part): truncation
toward zero. Scientific notation does not occur in this data and is not
modelled; `none` models a raised exception. -/
def pyIntOfFloatString (v : String) : Option Int :=
  let t := (pyStrip v).data
  let su :=
    match t with
    | '-' :: rest => (true, rest)
    | u => (false, u)
  match splitOnChar '.' su.2 with
  | [ip] => (pyDigitsToNat ip).map (fun n => if su.1 then -(n : Int) else (n : Int))
  | [ip, fp] =>
    if (ip ≠ [] ∨ fp ≠ []) ∧ ip.all Char.isDigit ∧ fp.all Char.isDigit then
      let n := ip.foldl (fun a c => a * 10 + (c.toNat - 48)) 0
      some (if su.1 then -(n : Int) else (n : Int))
    else none
  | _ => none

/-- `clean_val` from `supabase-salesorders-fast.py` (the same code appears
in `supabase-testrun.py`, `supabase-service.py` and
`supabase-service-fast.py`): `None`/NaN give `None`; otherwise the value
is stringified and stripped, and an empty or (case-insensitive) "nan"
result gives `None`. -/
def clean_val : Cell → Option String
  | Cell.pynone => none
  | Cell.nan => none
  | c =>
    let s := pyStrip (pyStrCell c)
    if pyLower s = "nan" ∨ s = "" then none else some s

/-- `clean_boolean` from `migration_utils.py`: `None`/NaN/blank gives
`None`; otherwise the stripped upper-cased token is mapped through the
true/false token sets, anything unrecognized giving `None`. -/
def clean_boolean (c : Cell) : Option Bool :=
  if pdIsna c ∨ pyStrip (pyStrCell c) = "" then none
  else
    let s := pyUpper (pyStrip (pyStrCell c))
    if ["TRUE", "T", "YES", "Y", "1"].contains s then some true
    else if ["FALSE", "F", "NO", "N", "0"].contains s then some false
    else none

/-- `clean_date_strict` from `supabase-salesorders-fast.py` (identical in
`supabase-testrun.py`): `None`/NaN/empty gives `None`; an already-typed
datetime passes through; a string goes to `pd.to_datetime(-, dayfirst=True)`
(the `pdParse` parameter), any exception giving `None`. -/
def clean_date_strict (pdParse : String → Option PyDateTime) (c : Cell) : Option PyDateTime :=
  if pdIsna c then none
  else
    match c with
    | Cell.str s => if s = "" then none else pdParse s
    | Cell.dt d => some d
    | _ => none

/-- `clean_date` from `migration_utils.py`: like `clean_date_strict` but
returning `datetime.now()` (the `now` parameter) for `None`/NaN/empty
input and for a parse failure. -/
def clean_date (pdParse : String → Option PyDateTime) (now : PyDateTime) (c : Cell) : PyDateTime :=
  if pdIsna c then now
  else
    match c with
    | Cell.str s => if s = "" then now else (pdParse s).getD now
    | Cell.dt d => d
    | _ => now

/-- `clean_date` from `supabase-service-fast.py` (identical in
`supabase-service.py`); its body coincides with `clean_date_strict`. -/
def clean_date_service (pdParse : String → Option PyDateTime) (c : Cell) : Option PyDateTime :=
  if pdIsna c then none
  else
    match c with
    | Cell.str s => if s = "" then none else pdParse s
    | Cell.dt d => some d
    | _ => none

/-- `clean_int_str` from `supabase-service-fast.py` and
`supabase-service.py`: renders float-typed identifiers such as "12345.0"
back to the canonical integer string "12345", passing non-numeric values
through unchanged. -/
def clean_int_str (c : Cell) : Option String :=
  match clean_val c with
  | none => none
  | some v =>
    match pyIntOfFloatString v with
    | some n => some (toString n)
    | none => some v

/-- `parse_legacy_job_number` from `supabase-salesorders-fast.py`
(lines 44-61): cleaned input containing a hyphen splits once at the first
hyphen with both pieces stripped; no hyphen means the whole value is the
base; absent input gives `(None, None)`. -/
def parse_legacy_job_number (c : Cell) : Option String × Option String :=
  match clean_val c with
  | none => (none, none)
  | some v =>
    match pySplit1 v with
    | (b, some suf) => (some (pyStrip b), some (pyStrip suf))
    | (_, none) => (some v, none)

/-- `parse_legacy_job_number` from `testrun.py` (lines 55-67): the raw
value is stringified and stripped, the base must convert with `int(...)`,
and on a `ValueError` the result is `(None, s)` with the whole stripped
string as suffix. -/
def parse_legacy_job_number_tr (c : Cell) : Option Int × Option String :=
  let s := pyStrip (pyStrCell c)
  match pySplit1 s with
  | (b, some suf) =>
    match pyIntOfString b with
    | some n => (some n, some suf)
    | none => (none, some s)
  | (_, none) =>
    match pyIntOfString s with
    | some n => (some n, none)
    | none => (none, some s)

/-- `parse_legacy_job_number` from `supabase-testrun.py` (lines 43-52):
like the `testrun.py` variant but running `clean_val` first and giving
`(None, None)` on absent input. -/
def parse_legacy_job_number_st (c : Cell) : Option Int × Option String :=
  match clean_val c with
  | none => (none, none)
  | some v =>
    match pySplit1 v with
    | (b, some suf) =>
      match pyIntOfString b with
      | some n => (some n, some suf)
      | none => (none, some v)
    | (_, none) =>
      match pyIntOfString v with
      | some n => (some n, none)
      | none => (none, some v)

/-- Stage derivation of `prepare_all_data` in
`supabase-salesorders-fast.py` (lines 124-137): raw stage upper-cased
with default "QUOTE"; a record with a parsed job base and stage "QUOTE"
is forced to "SOLD"; a record with no parsed base is forced to "QUOTE". -/
def derive_stage (jobCell stageCell : Cell) : String :=
  let bs := parse_legacy_job_number jobCell
  let raw_stage := clean_val stageCell
  let stage := match raw_stage with
    | some s => pyUpper s
    | none => "QUOTE"
  match bs.1 with
  | some _ => if stage = "QUOTE" then "SOLD" else stage
  | none => "QUOTE"

/-- Stage value written by `migrate_jobs` in `supabase-testrun.py`
(line 269): the raw stage upper-cased, defaulting to "QUOTE"; this
variant performs no promotion to "SOLD" and no forcing to "QUOTE". -/
def derive_stage_st (stageCell : Cell) : String :=
  match clean_val stageCell with
  | some s => pyUpper s
  | none => "QUOTE"

/-- Ship-status derivation of `prepare_all_data` in
`supabase-salesorders-fast.py` (lines 139-145): no ship date means
"unprocessed"; a ship date with an explicitly false confirmation flag
means "tentative"; otherwise "confirmed". -/
def final_ship_status (pdParse : String → Option PyDateTime) (dateShip confirmCell : Cell) : String :=
  let ship_date_val := clean_date_strict pdParse dateShip
  let legacy_conf := clean_boolean confirmCell
  if ship_date_val = none then "unprocessed"
  else if ship_date_val ≠ none ∧ legacy_conf = some false then "tentative"
  else "confirmed"

/-- Ship-status derivation of `migrate_jobs` in `supabase-testrun.py`
(lines 310-313): no ship date means "unprocessed"; otherwise
`'confirmed' if legacy_conf else 'unprocessed'`, so only an explicitly
true flag gives "confirmed" and this variant never yields "tentative". -/
def final_ship_status_st (pdParse : String → Option PyDateTime) (dateShip confirmCell : Cell) : String :=
  let ship_date_val := clean_date_strict pdParse dateShip
  let legacy_conf := clean_boolean confirmCell
  if ship_date_val = none then "unprocessed"
  else if legacy_conf = some true then "confirmed"
  else "unprocessed"

/-! ## Service-order preparation (`supabase-service-fast.py`) -/

/-- The fields of one `Service` sheet row that drive linking, skipping
and the `date_entered` column in `prepare_service_data`. -/
structure SRow where
  SO_NO : Cell
  SALES_OR : Cell
  DATE_ENTER : Cell
deriving DecidableEq

/-- One prepared `service_orders` header, restricted to the fields the
claims are about: the resolved job key, the cleaned service-order number
and the `date_entered` column (which is a plain, never-absent value). -/
structure ServiceHeader where
  job_id : Nat
  service_order_number : Option String
  date_entered : PyDateTime
deriving DecidableEq

/-- Python's `job_map.get(legacy_sales_id)`: `dict.get` on a
string-keyed map, with a `None` key looking nothing up. -/
def jobMapGet (jobMap : List (String × Nat)) : Option String → Option Nat
  | none => none
  | some k => (jobMap.find? (fun p => p.1 = k)).map Prod.snd

/-- `prepare_service_data` from `supabase-service-fast.py` (lines 66-128),
restricted to the header fields above: each row's `SALES_OR` is cleaned
and looked up in the job map; `if not job_id` (a missing key, or the
falsy id `0`) appends the row's `SO_NO` to the skip list and produces no
header; otherwise a header is built whose `date_entered` is
`clean_date(row.get('DATE_ENTER')) or datetime(1999, 9, 19)`. -/
def prepare_service_data (pdParse : String → Option PyDateTime)
    (jobMap : List (String × Nat)) :
    List SRow → List ServiceHeader × List (Option String)
  | [] => ([], [])
  | r :: rest =>
    let so_no := clean_int_str r.SO_NO
    let job_id := jobMapGet jobMap (clean_int_str r.SALES_OR)
    let tail := prepare_service_data pdParse jobMap rest
    match job_id with
    | none => (tail.1, so_no :: tail.2)
    | some j =>
      if j = 0 then (tail.1, so_no :: tail.2)
      else
        ({ job_id := j, service_order_number := so_no,
           date_entered := (clean_date_service pdParse r.DATE_ENTER).getD sentinelDate } :: tail.1,
         tail.2)

/-! ## Reference-table deduplication (`migrate-lookups.py`, `migrate-clients.py`) -/

/-- One source row of a lookup sheet: the natural-key name column (e.g.
`Species`) and its type-specific flag (e.g. `Prefinished`). -/
structure LookupRow where
  name : String
  flag : Bool
deriving DecidableEq

/-- pandas' `drop_duplicates(subset=['Species'])`: keep the first row
for each name, where `seen` holds the names already kept. -/
def dedupByName : List LookupRow → List String → List LookupRow
  | [], _ => []
  | r :: rest, seen =>
    if seen.contains r.name then dedupByName rest seen
    else r :: dedupByName rest (r.name :: seen)

/-- The rows inserted by one lookup-table section of
`migrate_lookup_tables` in `migrate-lookups.py` (the Species section,
lines 26-47; Colors and DoorStyles are the same shape): source names are
stringified and stripped, empty names are filtered out, names already in
the (stripped) target set are filtered out, and the survivors are
deduplicated by name, first occurrence winning. -/
def migrate_lookup_new (source : List LookupRow) (existing : List String) : List LookupRow :=
  let cleaned := (source.map (fun r => { r with name := pyStrip r.name })).filter
    (fun r => r.name ≠ "")
  let existingSet := existing.map pyStrip
  let fresh := cleaned.filter (fun r => !(existingSet.contains r.name))
  dedupByName fresh []

/-- One source row of the `Client` sheet: the legacy client id and the
remaining columns collapsed into an opaque payload. -/
structure ClientRow where
  CLIENT_ID : String
  payload : Nat
deriving DecidableEq

/-- pandas' `drop_duplicates(subset=['CLIENT_ID'], keep='first')`. -/
def dedupByClientId : List ClientRow → List String → List ClientRow
  | [], _ => []
  | r :: rest, seen =>
    if seen.contains r.CLIENT_ID then dedupByClientId rest seen
    else r :: dedupByClientId rest (r.CLIENT_ID :: seen)

/-- The rows submitted for insertion by `run_client_migration` in
`migrate-clients.py` (lines 23-90): ids are stringified and stripped,
duplicates within the source are dropped (first wins), the pandas
missing renderings are nulled out and dropped — and nothing else: the
function never reads the target table, so no row is filtered out for
already existing there. -/
def run_client_rows (source : List ClientRow) : List ClientRow :=
  let cleaned := source.map (fun r => { r with CLIENT_ID := pyStrip r.CLIENT_ID })
  let dd := dedupByClientId cleaned []
  dd.filter (fun r => !(["nan", "NaN", "<NA>"].contains r.CLIENT_ID))

/-! ## The bulk loader (`supabase-salesorders-fast.py`, `migrate_jobs`)

One prepared record of `df_all` is reduced to the fields that drive the
loader's bookkeeping; each `…Payload` field stands for the whole column
tuple that the corresponding `INSERT` receives, so equal payloads in a
theorem mean "the row built from this source record". Generated keys
are modelled as consecutive integers from an arbitrary per-table offset,
exactly what `execute_values(..., fetch=True)` returns for serial
primary keys, in insertion order. -/

/-- One record of `df_all` as `prepare_all_data` hands it to the loader. -/
structure BRec where
  createdAt : Option Nat
  jobBase : Option String
  jobSuffix : Option String
  cabPayload : Nat
  soPayload : Nat
  prodPayload : Nat
  instPayload : Nat
  purchPayload : Nat
deriving DecidableEq

/-- `pd.notna(row['job_base_number'])`: the record parsed a job base. -/
def hasJob (r : BRec) : Bool := r.jobBase.isSome

/-- `pd.notna(row['so_created_at'])` is false: the record goes into the
without-creation-timestamp insert batch. -/
def noCreatedAt (r : BRec) : Bool := r.createdAt.isNone

/-- The record goes into the with-creation-timestamp insert batch. -/
def hasCreatedAt (r : BRec) : Bool := r.createdAt.isSome

/-- One inserted `sales_orders` row (key fields only): the column tuple,
the cabinet key `cabinet_ids[idx]` it references, and the optional
`created_at` override. -/
structure SORow where
  payload : Nat
  cabinet_id : Nat
  created_at : Option Nat
deriving DecidableEq

/-- One inserted `jobs` row: the natural key plus the three foreign keys
captured from the earlier steps. -/
structure JobRow where
  job_base_number : String
  job_suffix : Option String
  sales_order_id : Nat
  prod_id : Nat
  installation_id : Nat
deriving DecidableEq

/-- One inserted `purchase_tracking` row. -/
structure PurchRow where
  job_id : Nat
  payload : Nat
deriving DecidableEq

/-- The committed contents of the target tables touched by one run. -/
structure DB where
  cabinets : List (Nat × Nat)
  sales_orders : List (Nat × SORow)
  production_schedule : List (Nat × Nat)
  installation : List (Nat × Nat)
  jobs : List (Nat × JobRow)
  purchase_tracking : List PurchRow
deriving DecidableEq

/-- Keys a batch `INSERT ... RETURNING id` hands back: consecutive ids
from the table's next serial value, in insertion order. -/
def zipIds (start : Nat) (rows : List α) : List (Nat × α) :=
  List.zip (List.range' start rows.length) rows

/-- Looking a surrogate key up in a table. -/
def tableFind (t : List (Nat × α)) (k : Nat) : Option α :=
  (t.find? (fun r => r.1 = k)).map Prod.snd

/-- The position of `i` in a list of indices (`findPos idxs i = some p`
when `idxs[p] = i` first), modelling array re-association loops such as
`for i, (orig_idx, _) in enumerate(so_without_date): so_ids[orig_idx] = result[i][0]`. -/
def findPos : List Nat → Nat → Option Nat
  | [], _ => none
  | j :: js, i => if j = i then some 0 else (findPos js i).map Nat.succ

/-- The original `df_all` positions (in input order) of the records
satisfying `P`, starting the enumeration at `k`. -/
def idxWhereFrom (P : BRec → Bool) (recs : List BRec) (k : Nat) : List Nat :=
  ((recs.enumFrom k).filter (fun p => P p.2)).map Prod.fst

/-- The original `df_all` positions (in input order) of the records
satisfying `P`; e.g. `job_insert_indices` is `idxWhere hasJob recs`. -/
def idxWhere (P : BRec → Bool) (recs : List BRec) : List Nat :=
  idxWhereFrom P recs 0

/-- How many records before position `i` satisfy `P` — the value of the
`current_res_idx` counter when the scan reaches `i`. -/
def countPrior (P : BRec → Bool) (recs : List BRec) (i : Nat) : Nat :=
  ((recs.take i).filter P).length

/-- The merged `so_ids` array (step 2 of `migrate_jobs`, lines 330-401):
the without-`created_at` batch is inserted first and its returned keys
written back to each row's original position, then the with-`created_at`
batch continues from the next serial value. -/
def soIdAt (recs : List BRec) (soStart i : Nat) : Option Nat :=
  match findPos (idxWhere noCreatedAt recs) i with
  | some p => some (soStart + p)
  | none =>
    (findPos (idxWhere hasCreatedAt recs) i).map
      (fun q => soStart + (idxWhere noCreatedAt recs).length + q)

/-- The `prod_ids_map` position map (step 3, lines 403-454): records with
a job base are inserted in input order and the returned keys mapped back
through the `current_res_idx` scan. -/
def prodIdAt (recs : List BRec) (prodStart i : Nat) : Option Nat :=
  (findPos (idxWhere hasJob recs) i).map (fun p => prodStart + p)

/-- The `inst_ids_map` position map (step 4, lines 456-490). -/
def instIdAt (recs : List BRec) (instStart i : Nat) : Option Nat :=
  (findPos (idxWhere hasJob recs) i).map (fun p => instStart + p)

/-- The cabinet rows of step 1 (lines 287-325), one per record in input
order. -/
def cabRowsOf (recs : List BRec) : List Nat :=
  recs.map (fun r => r.cabPayload)

/-- A `sales_orders` row built from enumerated record `p`, referencing
`cabinet_ids[idx] = cabStart + idx`. -/
def soRowOf (cabStart : Nat) (p : Nat × BRec) : SORow :=
  { payload := p.2.soPayload, cabinet_id := cabStart + p.1, created_at := p.2.createdAt }

/-- The without-`created_at` insert batch of step 2, in input order. -/
def soRowsA (recs : List BRec) (cabStart : Nat) : List SORow :=
  ((recs.enum).filter (fun p => noCreatedAt p.2)).map (soRowOf cabStart)

/-- The with-`created_at` insert batch of step 2, in input order. -/
def soRowsB (recs : List BRec) (cabStart : Nat) : List SORow :=
  ((recs.enum).filter (fun p => hasCreatedAt p.2)).map (soRowOf cabStart)

/-- The `real_prod_data` rows of step 3: `prod_data` holds `None` for
records without a job base and those placeholders are filtered out. -/
def prodRowsOf (recs : List BRec) : List Nat :=
  recs.filterMap (fun r => if hasJob r then some r.prodPayload else none)

/-- The `real_inst_data` rows of step 4. -/
def instRowsOf (recs : List BRec) : List Nat :=
  recs.filterMap (fun r => if hasJob r then some r.instPayload else none)

/-- The `job_data` rows of step 5 (lines 497-525), one per record with a
job base, in input order, each referencing `so_ids[idx]`,
`prod_ids_map[idx]` and `inst_ids_map[idx]` for its own original
position `idx`. -/
def jobRowsOf (recs : List BRec) (soStart prodStart instStart : Nat) : List JobRow :=
  ((recs.enum).filter (fun p => hasJob p.2)).map (fun p =>
    { job_base_number := p.2.jobBase.getD ""
      job_suffix := p.2.jobSuffix
      sales_order_id := (soIdAt recs soStart p.1).getD 0
      prod_id := (prodIdAt recs prodStart p.1).getD 0
      installation_id := (instIdAt recs instStart p.1).getD 0 })

/-- The `purch_data` rows (lines 527-547): the returned job keys, zipped
in order with `job_insert_indices`, each row carrying the purchase
columns of its original record. -/
def purchRowsOf (recs : List BRec) (jobStart : Nat) : List PurchRow :=
  (((recs.enum).filter (fun p => hasJob p.2)).enum).map (fun q =>
    { job_id := jobStart + q.1, payload := q.2.2.purchPayload })

/-- Where the single fatal error of a run strikes, if anywhere: each
constructor names the `INSERT` it aborts. `migrate_jobs` calls
`raw_conn.commit()` after every batch (lines 325, 391, 401, 454, 490,
525, 547), so the `except` handler's `raw_conn.rollback()` (line 557)
discards only the failing batch's own writes before re-raising. -/
inductive FailPoint where
  | cabinets
  | salesOrdersA
  | salesOrdersB
  | production
  | installation
  | jobs
  | purchases
deriving DecidableEq

/-- How many commits complete before the run stops (all seven when no
step fails). -/
def failLevel : Option FailPoint → Nat
  | some FailPoint.cabinets => 0
  | some FailPoint.salesOrdersA => 1
  | some FailPoint.salesOrdersB => 2
  | some FailPoint.production => 3
  | some FailPoint.installation => 4
  | some FailPoint.jobs => 5
  | some FailPoint.purchases => 6
  | none => 7

/-- The committed database state after one run of the bulk section of
`migrate_jobs` (lines 282-559) over the prepared records, given the
tables' next serial values and the point (if any) at which a fatal error
strikes: every batch committed before the failure persists, the failing
batch's writes are rolled back, and the error is re-raised so nothing
later runs. -/
def runBulk (recs : List BRec) (cabStart soStart prodStart instStart jobStart : Nat)
    (failAt : Option FailPoint) : DB :=
  let lvl := failLevel failAt
  { cabinets := if 1 ≤ lvl then zipIds cabStart (cabRowsOf recs) else []
    sales_orders :=
      (if 2 ≤ lvl then zipIds soStart (soRowsA recs cabStart) else []) ++
      (if 3 ≤ lvl then
        zipIds (soStart + (soRowsA recs cabStart).length) (soRowsB recs cabStart)
      else [])
    production_schedule := if 4 ≤ lvl then zipIds prodStart (prodRowsOf recs) else []
    installation := if 5 ≤ lvl then zipIds instStart (instRowsOf recs) else []
    jobs := if 6 ≤ lvl then zipIds jobStart (jobRowsOf recs soStart prodStart instStart) else []
    purchase_tracking := if 7 ≤ lvl then purchRowsOf recs jobStart else [] }

/-! ## List bookkeeping lemmas -/

theorem aux_dropWhile_dropWhile {α : Type} (p : α → Bool) (l : List α) :
    (l.dropWhile p).dropWhile p = l.dropWhile p := by
  induction l with
  | nil => rfl
  | cons x xs ih =>
    by_cases h : p x
    · simpa [List.dropWhile_cons, h] using ih
    · simp [List.dropWhile_cons, h]

theorem aux_dropWhile_of_strip {α : Type} (w : α → Bool) (l : List α) :
    (((l.dropWhile w).reverse.dropWhile w).reverse).dropWhile w
      = ((l.dropWhile w).reverse.dropWhile w).reverse := by
  set A := l.dropWhile w with hA
  have hAfix : A.dropWhile w = A := aux_dropWhile_dropWhile w l
  set B := A.reverse.dropWhile w with hB
  set T := A.reverse.takeWhile w with hT
  have hsplit : A = B.reverse ++ T.reverse := by
    have h1 : T ++ B = A.reverse := List.takeWhile_append_dropWhile w A.reverse
    have h2 : A = (T ++ B).reverse := by rw [h1, List.reverse_reverse]
    rw [h2, List.reverse_append]
  cases hc : B.reverse with
  | nil => rfl
  | cons x xs =>
    by_cases hw : w x
    · exfalso
      have hAeq : A = x :: (xs ++ T.reverse) := by rw [hsplit, hc]; rfl
      have h2 : A.dropWhile w = (xs ++ T.reverse).dropWhile w := by
        conv_lhs => rw [hAeq]
        rw [List.dropWhile_cons, if_pos hw]
      have hle := (List.dropWhile_sublist (l := xs ++ T.reverse) w).length_le
      have hlen := congrArg List.length (hAfix.symm.trans h2)
      have hlenA : A.length = (xs ++ T.reverse).length + 1 := by rw [hAeq]; rfl
      omega
    · rw [List.dropWhile_cons, if_neg (by simp [hw])]

theorem pyStrip_idem (s : String) : pyStrip (pyStrip s) = pyStrip s := by
  have hlist :
      ((((((s.data.dropWhile Char.isWhitespace).reverse.dropWhile
          Char.isWhitespace).reverse).dropWhile Char.isWhitespace).reverse).dropWhile
          Char.isWhitespace).reverse =
        ((s.data.dropWhile Char.isWhitespace).reverse.dropWhile Char.isWhitespace).reverse := by
    rw [aux_dropWhile_of_strip, List.reverse_reverse]
    exact aux_dropWhile_of_strip Char.isWhitespace s.data
  exact congrArg String.mk hlist

theorem aux_findPos_eq_none (l : List Nat) (i : Nat) (h : i ∉ l) : findPos l i = none := by
  induction l with
  | nil => rfl
  | cons j js ih =>
    simp only [List.mem_cons, not_or] at h
    simp only [findPos]
    rw [if_neg (fun he => h.1 he.symm), ih h.2]
    rfl

theorem aux_mem_idxWhereFrom_ge (P : BRec → Bool) (recs : List BRec) (k x : Nat)
    (hx : x ∈ idxWhereFrom P recs k) : k ≤ x := by
  induction recs generalizing k with
  | nil => simp [idxWhereFrom] at hx
  | cons r rest ih =>
    simp only [idxWhereFrom, List.enumFrom_cons, List.filter_cons] at hx
    by_cases hp : P r
    · simp only [hp, if_true, List.map_cons, List.mem_cons] at hx
      rcases hx with h1 | h2
      · omega
      · have := ih (k + 1) h2
        omega
    · simp only [hp, Bool.false_eq_true, if_false] at hx
      have := ih (k + 1) hx
      omega

theorem aux_countPrior_zero (P : BRec → Bool) (recs : List BRec) :
    countPrior P recs 0 = 0 := by
  simp [countPrior]

theorem aux_countPrior_succ (P : BRec → Bool) (r : BRec) (rest : List BRec) (i : Nat) :
    countPrior P (r :: rest) (i + 1) =
      (if P r then 1 else 0) + countPrior P rest i := by
  simp only [countPrior, List.take_succ_cons, List.filter_cons]
  by_cases hp : P r <;> simp [hp] <;> omega

theorem aux_findPos_idxWhereFrom (P : BRec → Bool) (recs : List BRec) :
    ∀ (k i : Nat) (hi : i < recs.length),
      findPos (idxWhereFrom P recs k) (k + i) =
        if P (recs.get ⟨i, hi⟩) then some (countPrior P recs i) else none := by
  induction recs with
  | nil => intro k i hi; exact absurd hi (by simp)
  | cons r rest ih =>
    intro k i hi
    have hexp : idxWhereFrom P (r :: rest) k =
        if P r then k :: idxWhereFrom P rest (k + 1) else idxWhereFrom P rest (k + 1) := by
      simp only [idxWhereFrom, List.enumFrom_cons, List.filter_cons]
      by_cases hp : P r <;> simp [hp]
    cases i with
    | zero =>
      by_cases hp : P r
      · rw [hexp, if_pos hp]
        simp [findPos, countPrior, hp]
      · rw [hexp, if_neg hp]
        have hnot : k + 0 ∉ idxWhereFrom P rest (k + 1) := fun hmem => by
          have := aux_mem_idxWhereFrom_ge P rest (k + 1) (k + 0) hmem
          omega
        rw [aux_findPos_eq_none _ _ hnot]
        simp [hp]
    | succ i' =>
      have hi' : i' < rest.length := by simpa using hi
      have hkk : k + (i' + 1) = (k + 1) + i' := by omega
      have hget : (r :: rest).get ⟨i' + 1, hi⟩ = rest.get ⟨i', hi'⟩ := rfl
      by_cases hp : P r
      · rw [hexp, if_pos hp]
        simp only [findPos]
        rw [if_neg (by omega), hkk, ih (k + 1) i' hi', hget]
        by_cases hq : P rest[i'] <;>
          simp [hq, aux_countPrior_succ, hp, List.get_eq_getElem] <;> omega
      · rw [hexp, if_neg hp, hkk, ih (k + 1) i' hi', hget]
        by_cases hq : P rest[i'] <;>
          simp [hq, aux_countPrior_succ, hp, List.get_eq_getElem] <;> omega

theorem aux_enumFrom_filter_map_snd (P : BRec → Bool) (recs : List BRec) :
    ∀ k : Nat,
      ((recs.enumFrom k).filter (fun p => P p.2)).map Prod.snd = recs.filter P := by
  induction recs with
  | nil => intro k; rfl
  | cons r rest ih =>
    intro k
    simp only [List.enumFrom_cons, List.filter_cons]
    by_cases hp : P r <;> simp [hp, ih (k + 1)]

theorem aux_enumFrom_filter_length (P : BRec → Bool) (recs : List BRec) (k : Nat) :
    ((recs.enumFrom k).filter (fun p => P p.2)).length = (recs.filter P).length := by
  have := congrArg List.length (aux_enumFrom_filter_map_snd P recs k)
  simpa using this

theorem aux_idxWhereFrom_length (P : BRec → Bool) (recs : List BRec) (k : Nat) :
    (idxWhereFrom P recs k).length = (recs.filter P).length := by
  simp [idxWhereFrom, aux_enumFrom_filter_length]

theorem aux_enumFrom_filter_get (P : BRec → Bool) (recs : List BRec) :
    ∀ (k i : Nat) (hi : i < recs.length), P (recs.get ⟨i, hi⟩) = true →
      ∃ h : countPrior P recs i < ((recs.enumFrom k).filter (fun p => P p.2)).length,
        ((recs.enumFrom k).filter (fun p => P p.2)).get ⟨countPrior P recs i, h⟩ =
          (k + i, recs.get ⟨i, hi⟩) := by
  induction recs with
  | nil => intro k i hi; exact absurd hi (by simp)
  | cons r rest ih =>
    intro k i hi hp
    cases i with
    | zero =>
      have hp0 : P r = true := hp
      have hexp : ((r :: rest).enumFrom k).filter (fun p => P p.2) =
          (k, r) :: ((rest.enumFrom (k + 1)).filter (fun p => P p.2)) := by
        simp [List.enumFrom_cons, List.filter_cons, hp0]
      rw [hexp]
      exact ⟨Nat.succ_pos _, rfl⟩
    | succ i' =>
      have hi' : i' < rest.length := by simpa using hi
      have hp' : P (rest.get ⟨i', hi'⟩) = true := hp
      obtain ⟨hlt, hget⟩ := ih (k + 1) i' hi' hp'
      by_cases hp0 : P r
      · have hexp : ((r :: rest).enumFrom k).filter (fun p => P p.2) =
            (k, r) :: ((rest.enumFrom (k + 1)).filter (fun p => P p.2)) := by
          simp [List.enumFrom_cons, List.filter_cons, hp0]
        have hcp : countPrior P (r :: rest) (i' + 1) = countPrior P rest i' + 1 := by
          rw [aux_countPrior_succ, if_pos hp0]; omega
        rw [hexp, hcp]
        refine ⟨Nat.succ_lt_succ hlt, ?_⟩
        show ((rest.enumFrom (k + 1)).filter (fun p => P p.2)).get
          ⟨countPrior P rest i', hlt⟩ = _
        rw [hget]
        have hkk : (k + 1) + i' = k + (i' + 1) := by omega
        rw [hkk]
        rfl
      · have hexp : ((r :: rest).enumFrom k).filter (fun p => P p.2) =
            (rest.enumFrom (k + 1)).filter (fun p => P p.2) := by
          simp [List.enumFrom_cons, List.filter_cons, hp0]
        have hcp : countPrior P (r :: rest) (i' + 1) = countPrior P rest i' := by
          rw [aux_countPrior_succ, if_neg hp0]; omega
        rw [hexp, hcp]
        refine ⟨hlt, ?_⟩
        rw [hget]
        have hkk : (k + 1) + i' = k + (i' + 1) := by omega
        rw [hkk]
        rfl

theorem aux_filter_get (P : BRec → Bool) (recs : List BRec) :
    ∀ (i : Nat) (hi : i < recs.length), P (recs.get ⟨i, hi⟩) = true →
      ∃ h : countPrior P recs i < (recs.filter P).length,
        (recs.filter P).get ⟨countPrior P recs i, h⟩ = recs.get ⟨i, hi⟩ := by
  induction recs with
  | nil => intro i hi; exact absurd hi (by simp)
  | cons r rest ih =>
    intro i hi hp
    cases i with
    | zero =>
      have hp0 : P r = true := hp
      rw [List.filter_cons, if_pos hp0]
      exact ⟨Nat.succ_pos _, rfl⟩
    | succ i' =>
      have hi' : i' < rest.length := by simpa using hi
      have hp' : P (rest.get ⟨i', hi'⟩) = true := hp
      obtain ⟨hlt, hget⟩ := ih i' hi' hp'
      by_cases hp0 : P r
      · have hcp : countPrior P (r :: rest) (i' + 1) = countPrior P rest i' + 1 := by
          rw [aux_countPrior_succ, if_pos hp0]; omega
        rw [List.filter_cons, if_pos hp0, hcp]
        refine ⟨Nat.succ_lt_succ hlt, ?_⟩
        show (rest.filter P).get ⟨countPrior P rest i', hlt⟩ = _
        rw [hget]
        rfl
      · have hcp : countPrior P (r :: rest) (i' + 1) = countPrior P rest i' := by
          rw [aux_countPrior_succ, if_neg hp0]; omega
        rw [List.filter_cons, if_neg hp0, hcp]
        refine ⟨hlt, ?_⟩
        rw [hget]
        rfl

theorem aux_zipIds_cons (start : Nat) (x : α) (xs : List α) :
    zipIds start (x :: xs) = (start, x) :: zipIds (start + 1) xs := by
  simp [zipIds, List.range'_succ]

theorem aux_tableFind_zipIds (rows : List α) :
    ∀ (start p : Nat) (hp : p < rows.length),
      tableFind (zipIds start rows) (start + p) = some (rows.get ⟨p, hp⟩) := by
  induction rows with
  | nil => intro start p hp; exact absurd hp (by simp)
  | cons x xs ih =>
    intro start p hp
    rw [aux_zipIds_cons]
    cases p with
    | zero =>
      simp [tableFind, List.find?_cons_of_pos]
    | succ p' =>
      have hp' : p' < xs.length := by simpa using hp
      have := ih (start + 1) p' hp'
      simp only [tableFind] at this ⊢
      rw [List.find?_cons_of_neg _ (by simp)]
      rw [show start + (p' + 1) = (start + 1) + p' from by omega]
      exact this

theorem aux_tableFind_zipIds_out (rows : List α) :
    ∀ (start k : Nat), start + rows.length ≤ k →
      tableFind (zipIds start rows) k = none := by
  induction rows with
  | nil => intro start k _; rfl
  | cons x xs ih =>
    intro start k hk
    simp only [List.length_cons] at hk
    rw [aux_zipIds_cons]
    simp only [tableFind]
    rw [List.find?_cons_of_neg _ (by simp; omega)]
    have := ih (start + 1) k (by omega)
    simpa [tableFind] using this

theorem aux_filterMap_if {β : Type} (P : BRec → Bool) (f : BRec → β) (recs : List BRec) :
    recs.filterMap (fun r => if P r then some (f r) else none) = (recs.filter P).map f := by
  induction recs with
  | nil => rfl
  | cons r rest ih =>
    by_cases hp : P r <;> simp [List.filterMap_cons, List.filter_cons, hp, ih]

theorem aux_filter_partition_length (recs : List BRec) :
    (recs.filter noCreatedAt).length + (recs.filter hasCreatedAt).length = recs.length := by
  induction recs with
  | nil => rfl
  | cons r rest ih =>
    simp only [List.filter_cons, List.length_cons]
    cases hc : r.createdAt <;>
      simp [noCreatedAt, hasCreatedAt, hc, Option.isNone, Option.isSome] <;> omega

theorem aux_soRowsA_length (recs : List BRec) (cabStart : Nat) :
    (soRowsA recs cabStart).length = (recs.filter noCreatedAt).length := by
  simp [soRowsA, aux_enumFrom_filter_length, List.enum]

theorem aux_soRowsB_length (recs : List BRec) (cabStart : Nat) :
    (soRowsB recs cabStart).length = (recs.filter hasCreatedAt).length := by
  simp [soRowsB, aux_enumFrom_filter_length, List.enum]

theorem aux_jobRowsOf_length (recs : List BRec) (soStart prodStart instStart : Nat) :
    (jobRowsOf recs soStart prodStart instStart).length = (recs.filter hasJob).length := by
  simp [jobRowsOf, aux_enumFrom_filter_length, List.enum]

theorem aux_zipIds_map_snd (rows : List α) :
    ∀ start : Nat, (zipIds start rows).map Prod.snd = rows := by
  induction rows with
  | nil => intro start; rfl
  | cons x xs ih =>
    intro start
    rw [aux_zipIds_cons]
    simp [ih (start + 1)]

theorem aux_tableFind_append_left (t1 t2 : List (Nat × α)) (k : Nat) (v : α)
    (h : tableFind t1 k = some v) : tableFind (t1 ++ t2) k = some v := by
  simp only [tableFind, List.find?_append] at h ⊢
  rcases hf : t1.find? (fun r => r.1 = k) with _ | pr
  · rw [hf] at h; exact absurd h (by simp)
  · rw [hf] at h ⊢
    exact h

theorem aux_tableFind_append_right (t1 t2 : List (Nat × α)) (k : Nat)
    (h : tableFind t1 k = none) : tableFind (t1 ++ t2) k = tableFind t2 k := by
  simp only [tableFind, List.find?_append] at h ⊢
  rcases hf : t1.find? (fun r => r.1 = k) with _ | pr
  · rw [hf]; rfl
  · rw [hf] at h; exact absurd h (by simp)

theorem aux_dedupByName_names (l : List LookupRow) :
    ∀ (seen : List String) (r : LookupRow), r ∈ l →
      r.name ∈ seen ∨ r.name ∈ (dedupByName l seen).map (fun x => x.name) := by
  induction l with
  | nil => intro seen r hr; exact absurd hr (by simp)
  | cons x xs ih =>
    intro seen r hr
    by_cases hs : seen.contains x.name
    · have hd : dedupByName (x :: xs) seen = dedupByName xs seen := by
        simp only [dedupByName, if_pos hs]
      rcases List.mem_cons.mp hr with rfl | hr'
      · exact Or.inl (List.elem_iff.mp hs)
      · rw [hd]; exact ih seen r hr'
    · have hd : dedupByName (x :: xs) seen = x :: dedupByName xs (x.name :: seen) := by
        simp only [dedupByName, if_neg hs]
      rcases List.mem_cons.mp hr with rfl | hr'
      · right
        rw [hd]
        simp only [List.map_cons]
        exact List.mem_cons_self _ _
      · rcases ih (x.name :: seen) r hr' with h | h
        · rcases List.mem_cons.mp h with he | hseen
          · right
            rw [hd]
            simp only [List.map_cons, he]
            exact List.mem_cons_self _ _
          · exact Or.inl hseen
        · right
          rw [hd]
          simp only [List.map_cons]
          exact List.mem_cons_of_mem _ h

theorem aux_migrate_lookup_nil (source : List LookupRow) (existing : List String)
    (hall : ∀ rr ∈ (source.map (fun r => { r with name := pyStrip r.name })).filter
        (fun r => r.name ≠ ""),
      ((existing.map pyStrip).contains rr.name) = true) :
    migrate_lookup_new source existing = [] := by
  simp only [migrate_lookup_new]
  have hfil : ((source.map (fun r => { r with name := pyStrip r.name })).filter
      (fun r => r.name ≠ "")).filter
        (fun r => !((existing.map pyStrip).contains r.name)) = [] := by
    rw [List.filter_eq_nil_iff]
    intro rr hrr
    simp only [hall rr hrr]
    simp
  rw [hfil]
  rfl

/-! ## Claim theorems -/

/-- Claim C9, counterexample: `normalizeText` (`clean_val`) does not
treat the token "na" / "NA" as absent — only "nan" (case-insensitive),
the empty string and genuine null cells are absent.  `clean_val` on the
string "NA" returns the string itself. -/
theorem c9_counterexample :
    clean_val (Cell.str "NA") = some "NA" ∧ clean_val (Cell.str "na") = some "na" := by
  decide

/-- Claim C9 as amended: `clean_val` trims its input and returns absent
exactly for null cells (`None`/NaN), the empty string, and the
case-insensitive token "nan"; every other input — including "na" — comes
back as its trimmed string. -/
theorem c9_clean_val_amended (s : String) :
    clean_val Cell.pynone = none ∧
    clean_val Cell.nan = none ∧
    (pyStrip s = "" → clean_val (Cell.str s) = none) ∧
    (pyLower (pyStrip s) = "nan" → clean_val (Cell.str s) = none) ∧
    (pyStrip s ≠ "" → pyLower (pyStrip s) ≠ "nan" →
      clean_val (Cell.str s) = some (pyStrip s)) := by
  refine ⟨rfl, rfl, fun h => ?_, fun h => ?_, fun h1 h2 => ?_⟩
  · simp [clean_val, pyStrCell, h]
  · simp [clean_val, pyStrCell, h]
  · simp [clean_val, pyStrCell, h1, h2]

/-- Witness for C9's amended theorem at a concrete input. -/
theorem c9_witness : clean_val (Cell.str " Maple ") = some (pyStrip " Maple ") :=
  (c9_clean_val_amended " Maple ").2.2.2.2 (by decide) (by decide)

/-- Claim C6: `migration_utils.clean_date` substitutes the current time
(`datetime.now()`, the `now` argument) for empty, null and unparsable
input, while `clean_date_strict` — the variant the sales-order pipeline
uses — returns absent there and passes typed datetimes through.  The
evaluation below exhibits the divergence at the failing inputs. -/
theorem c6_clean_date_divergence :
    clean_date (fun _ => none) ⟨2026, 1, 1⟩ (Cell.str "") = ⟨2026, 1, 1⟩ ∧
    clean_date (fun _ => none) ⟨2026, 1, 1⟩ Cell.nan = ⟨2026, 1, 1⟩ ∧
    clean_date (fun _ => none) ⟨2026, 1, 1⟩ (Cell.str "not a date") = ⟨2026, 1, 1⟩ ∧
    clean_date_strict (fun _ => none) (Cell.str "") = none ∧
    clean_date_strict (fun _ => none) Cell.nan = none ∧
    clean_date_strict (fun _ => none) (Cell.str "not a date") = none ∧
    clean_date_strict (fun _ => none) (Cell.dt ⟨2001, 2, 3⟩) = some ⟨2001, 2, 3⟩ := by
  decide

/-- Claim C5, counterexample: the `testrun.py` parser requires an
integer base, so `parse_legacy_job_number("M207")` there is
`(None, "M207")` — not `("M207", None)` as the claim states — and
`parse_legacy_job_number("")` is `(None, "")`, not `(None, None)`.  The
`supabase-testrun.py` variant fails on "M207" the same way. -/
theorem c5_counterexample :
    parse_legacy_job_number_tr (Cell.str "M207") = (none, some "M207") ∧
    parse_legacy_job_number_tr (Cell.str "") = (none, some "") ∧
    parse_legacy_job_number_st (Cell.str "M207") = (none, some "M207") := by
  decide

/-- Claim C5 as amended: the fast loader's `parse_legacy_job_number`
behaves as claimed (with base and suffix additionally stripped): on a
cleaned value containing a hyphen it returns the trimmed text before the
first hyphen and the trimmed remainder, on a hyphen-free value the whole
value with absent suffix, and on absent input `(None, None)`; the quoted
test vectors hold. -/
theorem c5_parse_amended (v : String) (hv : clean_val (Cell.str v) = some v) :
    (v.data.contains '-' = true →
      parse_legacy_job_number (Cell.str v) =
        (some (pyStrip ⟨v.data.takeWhile (fun ch => ch ≠ '-')⟩),
         some (pyStrip ⟨(v.data.dropWhile (fun ch => ch ≠ '-')).drop 1⟩))) ∧
    (v.data.contains '-' = false →
      parse_legacy_job_number (Cell.str v) = (some v, none)) ∧
    parse_legacy_job_number (Cell.str "12345-S1") = (some "12345", some "S1") ∧
    parse_legacy_job_number (Cell.str "M207") = (some "M207", none) ∧
    parse_legacy_job_number (Cell.str "") = (none, none) := by
  refine ⟨fun hc => ?_, fun hc => ?_, by decide, by decide, by decide⟩
  · have hc' : '-' ∈ v.data := List.elem_iff.mp hc
    simp [parse_legacy_job_number, hv, pySplit1, hc']
  · have hc' : ¬ ('-' ∈ v.data) := by
      intro hm
      have h2 : v.data.contains '-' = true := List.elem_iff.mpr hm
      rw [hc] at h2
      exact absurd h2 (by simp)
    simp [parse_legacy_job_number, hv, pySplit1, hc']

/-- Witness for C5's amended theorem at a concrete input. -/
theorem c5_witness :
    parse_legacy_job_number (Cell.str "12345-S1") =
      (some (pyStrip ⟨"12345-S1".data.takeWhile (fun ch => ch ≠ '-')⟩),
       some (pyStrip ⟨("12345-S1".data.dropWhile (fun ch => ch ≠ '-')).drop 1⟩)) :=
  (c5_parse_amended "12345-S1" (by decide)).1 (by decide)

/-- Claim C3, counterexample: in `supabase-testrun.py` a present ship
date with an absent confirmation flag yields "unprocessed", not
"confirmed" as the claim states, and a present ship date with an
explicitly false flag also yields "unprocessed", never "tentative". -/
theorem c3_counterexample :
    final_ship_status_st (fun _ => none) (Cell.dt ⟨2020, 1, 2⟩) Cell.pynone = "unprocessed" ∧
    clean_date_strict (fun _ => none) (Cell.dt ⟨2020, 1, 2⟩) = some ⟨2020, 1, 2⟩ ∧
    clean_boolean Cell.pynone = none ∧
    final_ship_status_st (fun _ => none) (Cell.dt ⟨2020, 1, 2⟩) (Cell.str "N") =
      "unprocessed" ∧
    clean_boolean (Cell.str "N") = some false := by
  decide

/-- Claim C3 as amended: for the fast loader (`prepare_all_data`) the
derived ship status is "unprocessed" exactly when the normalized ship
date is absent, "tentative" exactly when it is present and the
confirmation flag normalizes to explicit false, and "confirmed" exactly
when it is present and the flag is true, unrecognized, or absent. -/
theorem c3_ship_status_amended (pdParse : String → Option PyDateTime)
    (dateShip confirmCell : Cell) :
    (final_ship_status pdParse dateShip confirmCell = "unprocessed" ↔
      clean_date_strict pdParse dateShip = none) ∧
    (final_ship_status pdParse dateShip confirmCell = "tentative" ↔
      clean_date_strict pdParse dateShip ≠ none ∧
        clean_boolean confirmCell = some false) ∧
    (final_ship_status pdParse dateShip confirmCell = "confirmed" ↔
      clean_date_strict pdParse dateShip ≠ none ∧
        clean_boolean confirmCell ≠ some false) := by
  have h12 : ("unprocessed" : String) ≠ "tentative" := by decide
  have h13 : ("unprocessed" : String) ≠ "confirmed" := by decide
  have h23 : ("tentative" : String) ≠ "confirmed" := by decide
  rcases hd : clean_date_strict pdParse dateShip with _ | d
  · simp [final_ship_status, hd, h12, h13]
  · rcases hb : clean_boolean confirmCell with _ | b
    · simp [final_ship_status, hd, hb, h13.symm, h23.symm]
    · cases b
      · simp [final_ship_status, hd, hb, h12.symm, h23]
      · simp [final_ship_status, hd, hb, h13.symm, h23.symm]

theorem aux_enumFrom_map_snd {γ : Type} (l : List γ) :
    ∀ k : Nat, (l.enumFrom k).map Prod.snd = l := by
  induction l with
  | nil => intro k; rfl
  | cons x xs ih =>
    intro k
    simp only [List.enumFrom_cons, List.map_cons, ih (k + 1)]

/-- Claim C4, counterexample: the client migration
(`run_client_migration`) never queries the target table; its inserted
rows depend on the source alone, so a source row whose legacy id already
exists in the target is still submitted — the second run does not insert
zero rows.  (The script itself only prints a hint when the resulting
unique-constraint error fires.) -/
theorem c4_counterexample :
    run_client_rows [⟨"C1", 0⟩] = [⟨"C1", 0⟩] := by decide

/-- Claim C4 as amended: the idempotent target-side dedup filter exists
only for the lookup tables (species, colors, door styles): running that
filter a second time, against a target that now holds everything the
first run inserted as well, selects zero rows.  Client and installer migrations
deduplicate only within the source (see the counterexample). -/
theorem c4_lookup_idempotent (source : List LookupRow) (existing : List String) :
    migrate_lookup_new source
      (existing ++ (migrate_lookup_new source existing).map (fun r => r.name)) = [] := by
  apply aux_migrate_lookup_nil
  intro rr hrr
  rw [List.map_append]
  refine List.elem_iff.mpr ?_
  rw [List.mem_append]
  by_cases hex : rr.name ∈ existing.map pyStrip
  · exact Or.inl hex
  · right
    have hstr : pyStrip rr.name = rr.name := by
      rcases List.mem_filter.mp hrr with ⟨hmm, _⟩
      rcases List.mem_map.mp hmm with ⟨orig, _, heq⟩
      rw [← heq]
      exact pyStrip_idem orig.name
    have hfresh : rr ∈ ((source.map (fun r => { r with name := pyStrip r.name })).filter
        (fun r => r.name ≠ "")).filter
          (fun r => !((existing.map pyStrip).contains r.name)) := by
      rw [List.mem_filter]
      refine ⟨hrr, ?_⟩
      have hcon : ¬ (existing.map pyStrip).contains rr.name = true :=
        fun hcon => hex (List.elem_iff.mp hcon)
      simp [Bool.not_eq_true] at hcon ⊢
      exact hcon
    have hnames := aux_dedupByName_names _ [] rr hfresh
    rcases hnames with h | h
    · exact absurd h (by simp)
    · rcases List.mem_map.mp h with ⟨x, hx, hxname⟩
      refine List.mem_map.mpr ⟨x.name, ?_, ?_⟩
      · exact List.mem_map.mpr ⟨x, hx, rfl⟩
      · rw [hxname, hstr]

theorem aux_enum_filter_map_snd (P : BRec → Bool) (recs : List BRec) :
    ((recs.enum).filter (fun p => P p.2)).map Prod.snd = recs.filter P :=
  aux_enumFrom_filter_map_snd P recs 0

theorem aux_enum_map_snd {γ : Type} (l : List γ) :
    (l.enum).map Prod.snd = l :=
  aux_enumFrom_map_snd l 0

/-- Claim C2, counterexample: `supabase-testrun.py` writes the raw
upper-cased stage with no promotion and no forcing: a record whose
JOB_NUM parses (base 12345) and whose legacy stage is "Quote" keeps
stage "QUOTE" (the claim says "SOLD"), and a record with an unparsable
JOB_NUM ("M207" has no integer base there) keeps a raw stage "SOLD"
(the claim says it must be forced to "QUOTE"). -/
theorem c2_counterexample :
    (parse_legacy_job_number_st (Cell.str "12345")).1 = some 12345 ∧
    derive_stage_st (Cell.str "Quote") = "QUOTE" ∧
    (parse_legacy_job_number_st (Cell.str "M207")).1 = none ∧
    derive_stage_st (Cell.str "Sold") = "SOLD" := by
  decide

/-- Claim C2 as amended: in the fast loader (`prepare_all_data` plus the
bulk steps of `migrate_jobs`), a record with a parsed job base and a
legacy stage normalizing to "QUOTE" (or absent) derives stage "SOLD", a
record with no parsed base derives "QUOTE" whatever the raw stage was,
and the production, installation, job and purchase-tracking tables
receive rows only from the records with a parsed base. -/
theorem c2_stage_amended (jobCell stageCell : Cell) (recs : List BRec)
    (cabStart soStart prodStart instStart jobStart : Nat) :
    ((parse_legacy_job_number jobCell).1 ≠ none →
      (clean_val stageCell = none ∨ (clean_val stageCell).map pyUpper = some "QUOTE") →
      derive_stage jobCell stageCell = "SOLD") ∧
    ((parse_legacy_job_number jobCell).1 = none →
      derive_stage jobCell stageCell = "QUOTE") ∧
    ((runBulk recs cabStart soStart prodStart instStart jobStart none).production_schedule.map
        Prod.snd = (recs.filter hasJob).map (fun r => r.prodPayload)) ∧
    ((runBulk recs cabStart soStart prodStart instStart jobStart none).installation.map
        Prod.snd = (recs.filter hasJob).map (fun r => r.instPayload)) ∧
    ((runBulk recs cabStart soStart prodStart instStart jobStart none).jobs.map
        (fun kr => kr.2.job_base_number) =
      (recs.filter hasJob).map (fun r => r.jobBase.getD "")) ∧
    ((runBulk recs cabStart soStart prodStart instStart jobStart none).purchase_tracking.map
        (fun pr => pr.payload) = (recs.filter hasJob).map (fun r => r.purchPayload)) := by
  refine ⟨?_, ?_, ?_, ?_, ?_, ?_⟩
  · intro h1 h2
    rcases hj : (parse_legacy_job_number jobCell).1 with _ | b
    · exact absurd hj h1
    · rcases h2 with h2 | h2
      · simp [derive_stage, hj, h2]
      · rcases hc : clean_val stageCell with _ | u
        · simp [derive_stage, hj, hc]
        · rw [hc] at h2
          simp only [Option.map_some'] at h2
          simp only [Option.some.injEq] at h2
          simp [derive_stage, hj, hc, h2]
  · intro h
    simp [derive_stage, h]
  · have hdb : (runBulk recs cabStart soStart prodStart instStart jobStart
        none).production_schedule = zipIds prodStart (prodRowsOf recs) := by
      simp [runBulk, failLevel]
    rw [hdb, aux_zipIds_map_snd, prodRowsOf, aux_filterMap_if]
  · have hdb : (runBulk recs cabStart soStart prodStart instStart jobStart
        none).installation = zipIds instStart (instRowsOf recs) := by
      simp [runBulk, failLevel]
    rw [hdb, aux_zipIds_map_snd, instRowsOf, aux_filterMap_if]
  · have hdb : (runBulk recs cabStart soStart prodStart instStart jobStart none).jobs =
        zipIds jobStart (jobRowsOf recs soStart prodStart instStart) := by
      simp [runBulk, failLevel]
    rw [hdb]
    calc (zipIds jobStart (jobRowsOf recs soStart prodStart instStart)).map
          (fun kr => kr.2.job_base_number)
        = ((zipIds jobStart (jobRowsOf recs soStart prodStart instStart)).map
            Prod.snd).map (fun jr => jr.job_base_number) := by
          rw [List.map_map]; rfl
      _ = (jobRowsOf recs soStart prodStart instStart).map
            (fun jr => jr.job_base_number) := by rw [aux_zipIds_map_snd]
      _ = (((recs.enum).filter (fun p => hasJob p.2)).map Prod.snd).map
            (fun r => r.jobBase.getD "") := by
          simp only [jobRowsOf, List.map_map]; rfl
      _ = (recs.filter hasJob).map (fun r => r.jobBase.getD "") := by
          rw [aux_enum_filter_map_snd]
  · have hdb : (runBulk recs cabStart soStart prodStart instStart jobStart
        none).purchase_tracking = purchRowsOf recs jobStart := by
      simp [runBulk, failLevel]
    rw [hdb]
    calc (purchRowsOf recs jobStart).map (fun pr => pr.payload)
        = ((((recs.enum).filter (fun p => hasJob p.2)).enum).map Prod.snd).map
            (fun p => p.2.purchPayload) := by
          simp only [purchRowsOf, List.map_map]; rfl
      _ = ((recs.enum).filter (fun p => hasJob p.2)).map
            (fun p => p.2.purchPayload) := by rw [aux_enum_map_snd]
      _ = (((recs.enum).filter (fun p => hasJob p.2)).map Prod.snd).map
            (fun r => r.purchPayload) := by rw [List.map_map]; rfl
      _ = (recs.filter hasJob).map (fun r => r.purchPayload) := by
          rw [aux_enum_filter_map_snd]

/-- Witness for C2's amended theorem at a concrete input. -/
theorem c2_witness : derive_stage (Cell.str "M207") (Cell.str "quote") = "SOLD" :=
  (c2_stage_amended (Cell.str "M207") (Cell.str "quote") [] 0 0 0 0 0).1
    (by decide) (Or.inr (by decide))

/-- Claim C1, counterexample: one record with a job base, run failing at
the jobs insert.  The claim says the entire batch is rolled back, but
the committed state still holds the record's cabinet and sales order —
with no job row — because every earlier step already committed. -/
theorem c1_counterexample :
    (runBulk [⟨some 1, some "100", none, 1, 2, 3, 4, 5⟩] 0 0 0 0 0
        (some FailPoint.jobs)).cabinets ≠ [] ∧
    (runBulk [⟨some 1, some "100", none, 1, 2, 3, 4, 5⟩] 0 0 0 0 0
        (some FailPoint.jobs)).sales_orders ≠ [] ∧
    (runBulk [⟨some 1, some "100", none, 1, 2, 3, 4, 5⟩] 0 0 0 0 0
        (some FailPoint.jobs)).jobs = [] := by
  decide

/-- Claim C1 as amended: a fatal error on a step rolls back only that
step's own (uncommitted) writes and re-raises; every batch committed
before it persists, because `migrate_jobs` commits after each step.  A
failure on the very first step leaves nothing committed; a failure on
the jobs step leaves one cabinet, one sales order and one production and
installation row per eligible record committed with no job rows at all;
a failure on the purchase step leaves the jobs committed with no
purchase rows. -/
theorem c1_commit_granularity (recs : List BRec)
    (cabStart soStart prodStart instStart jobStart : Nat) :
    runBulk recs cabStart soStart prodStart instStart jobStart (some FailPoint.cabinets) =
      DB.mk [] [] [] [] [] [] ∧
    (runBulk recs cabStart soStart prodStart instStart jobStart
        (some FailPoint.jobs)).cabinets.length = recs.length ∧
    (runBulk recs cabStart soStart prodStart instStart jobStart
        (some FailPoint.jobs)).sales_orders.length = recs.length ∧
    (runBulk recs cabStart soStart prodStart instStart jobStart
        (some FailPoint.jobs)).production_schedule.length = (recs.filter hasJob).length ∧
    (runBulk recs cabStart soStart prodStart instStart jobStart
        (some FailPoint.jobs)).jobs = [] ∧
    (runBulk recs cabStart soStart prodStart instStart jobStart
        (some FailPoint.jobs)).purchase_tracking = [] ∧
    (runBulk recs cabStart soStart prodStart instStart jobStart
        (some FailPoint.purchases)).jobs.length = (recs.filter hasJob).length ∧
    (runBulk recs cabStart soStart prodStart instStart jobStart
        (some FailPoint.purchases)).purchase_tracking = [] := by
  refine ⟨?_, ?_, ?_, ?_, ?_, ?_, ?_, ?_⟩
  · rfl
  · simp [runBulk, failLevel, zipIds, cabRowsOf]
  · have hpart := aux_filter_partition_length recs
    have hA := aux_soRowsA_length recs cabStart
    have hB := aux_soRowsB_length recs cabStart
    simp only [runBulk, failLevel]
    simp [zipIds]
    omega
  · simp [runBulk, failLevel, zipIds, prodRowsOf, aux_filterMap_if]
  · simp [runBulk, failLevel]
  · simp [runBulk, failLevel]
  · have hJ := aux_jobRowsOf_length recs soStart prodStart instStart
    simp only [runBulk, failLevel]
    simp [zipIds]
    omega
  · simp [runBulk, failLevel]

/-- Claim C7: every prepared ServiceOrder header carries a job key that
the job map actually resolved (and which is non-zero, `if not job_id`
being the gate), and every source row whose parent sales-order number
resolves to no job lands in the skip list, never among the headers. -/
theorem c7_service_skip (pdParse : String → Option PyDateTime)
    (jobMap : List (String × Nat)) (rows : List SRow) :
    (∀ h ∈ (prepare_service_data pdParse jobMap rows).1,
        h.job_id ≠ 0 ∧ ∃ r ∈ rows,
          jobMapGet jobMap (clean_int_str r.SALES_OR) = some h.job_id) ∧
    (∀ r ∈ rows, jobMapGet jobMap (clean_int_str r.SALES_OR) = none →
        clean_int_str r.SO_NO ∈ (prepare_service_data pdParse jobMap rows).2) := by
  induction rows with
  | nil =>
    constructor
    · intro h hmem; exact absurd hmem (by simp [prepare_service_data])
    · intro r hr; exact absurd hr (by simp)
  | cons r0 rest ih =>
    obtain ⟨ih1, ih2⟩ := ih
    constructor
    · intro h hmem
      rcases hjm : jobMapGet jobMap (clean_int_str r0.SALES_OR) with _ | j
      · rw [show (prepare_service_data pdParse jobMap (r0 :: rest)).1 =
            (prepare_service_data pdParse jobMap rest).1 from by
          simp [prepare_service_data, hjm]] at hmem
        obtain ⟨hne, rr, hrr, hh⟩ := ih1 h hmem
        exact ⟨hne, rr, List.mem_cons_of_mem _ hrr, hh⟩
      · by_cases hz : j = 0
        · rw [show (prepare_service_data pdParse jobMap (r0 :: rest)).1 =
              (prepare_service_data pdParse jobMap rest).1 from by
            simp [prepare_service_data, hjm, hz]] at hmem
          obtain ⟨hne, rr, hrr, hh⟩ := ih1 h hmem
          exact ⟨hne, rr, List.mem_cons_of_mem _ hrr, hh⟩
        · rw [show (prepare_service_data pdParse jobMap (r0 :: rest)).1 =
              ({ job_id := j, service_order_number := clean_int_str r0.SO_NO,
                 date_entered :=
                   (clean_date_service pdParse r0.DATE_ENTER).getD sentinelDate } ::
                (prepare_service_data pdParse jobMap rest).1) from by
            simp [prepare_service_data, hjm, hz]] at hmem
          rcases List.mem_cons.mp hmem with rfl | hmem'
          · exact ⟨hz, r0, List.mem_cons_self _ _, hjm⟩
          · obtain ⟨hne, rr, hrr, hh⟩ := ih1 h hmem'
            exact ⟨hne, rr, List.mem_cons_of_mem _ hrr, hh⟩
    · intro r hr hnone
      rcases List.mem_cons.mp hr with rfl | hr'
      · rw [show (prepare_service_data pdParse jobMap (r :: rest)).2 =
            (clean_int_str r.SO_NO :: (prepare_service_data pdParse jobMap rest).2) from by
          simp [prepare_service_data, hnone]]
        exact List.mem_cons_self _ _
      · have hmem := ih2 r hr' hnone
        rcases hjm : jobMapGet jobMap (clean_int_str r0.SALES_OR) with _ | j
        · rw [show (prepare_service_data pdParse jobMap (r0 :: rest)).2 =
              (clean_int_str r0.SO_NO ::
                (prepare_service_data pdParse jobMap rest).2) from by
            simp [prepare_service_data, hjm]]
          exact List.mem_cons_of_mem _ hmem
        · by_cases hz : j = 0
          · rw [show (prepare_service_data pdParse jobMap (r0 :: rest)).2 =
                (clean_int_str r0.SO_NO ::
                  (prepare_service_data pdParse jobMap rest).2) from by
              simp [prepare_service_data, hjm, hz]]
            exact List.mem_cons_of_mem _ hmem
          · rw [show (prepare_service_data pdParse jobMap (r0 :: rest)).2 =
                (prepare_service_data pdParse jobMap rest).2 from by
              simp [prepare_service_data, hjm, hz]]
            exact hmem

/-- Witness for C7 at a concrete input: the second row's parent resolves
to no job, so its cleaned number is counted among the skipped. -/
theorem c7_witness :
    clean_int_str (SRow.mk (Cell.str "10") (Cell.str "6") Cell.nan).SO_NO ∈
      (prepare_service_data (fun _ => none) [("5", 7)]
        [⟨Cell.str "9", Cell.str "5", Cell.nan⟩,
         ⟨Cell.str "10", Cell.str "6", Cell.nan⟩]).2 :=
  (c7_service_skip (fun _ => none) [("5", 7)]
      [⟨Cell.str "9", Cell.str "5", Cell.nan⟩,
       ⟨Cell.str "10", Cell.str "6", Cell.nan⟩]).2
    ⟨Cell.str "10", Cell.str "6", Cell.nan⟩ (by decide) (by decide)

/-- Claim C10: every loaded ServiceOrder header takes its `date_entered`
from the legacy DATE_ENTER when that normalizes to a date, and the fixed
sentinel 1999-09-19 when it is absent or unparsable; the field's type is
a plain date, so an absent `date_entered` can never be inserted. -/
theorem c10_date_entered (pdParse : String → Option PyDateTime)
    (jobMap : List (String × Nat)) (rows : List SRow) :
    ∀ h ∈ (prepare_service_data pdParse jobMap rows).1,
      ∃ r ∈ rows,
        (clean_date_service pdParse r.DATE_ENTER = none →
          h.date_entered = sentinelDate) ∧
        (∀ d, clean_date_service pdParse r.DATE_ENTER = some d →
          h.date_entered = d) := by
  induction rows with
  | nil => intro h hmem; exact absurd hmem (by simp [prepare_service_data])
  | cons r0 rest ih =>
    intro h hmem
    rcases hjm : jobMapGet jobMap (clean_int_str r0.SALES_OR) with _ | j
    · rw [show (prepare_service_data pdParse jobMap (r0 :: rest)).1 =
          (prepare_service_data pdParse jobMap rest).1 from by
        simp [prepare_service_data, hjm]] at hmem
      obtain ⟨rr, hrr, hok⟩ := ih h hmem
      exact ⟨rr, List.mem_cons_of_mem _ hrr, hok⟩
    · by_cases hz : j = 0
      · rw [show (prepare_service_data pdParse jobMap (r0 :: rest)).1 =
            (prepare_service_data pdParse jobMap rest).1 from by
          simp [prepare_service_data, hjm, hz]] at hmem
        obtain ⟨rr, hrr, hok⟩ := ih h hmem
        exact ⟨rr, List.mem_cons_of_mem _ hrr, hok⟩
      · rw [show (prepare_service_data pdParse jobMap (r0 :: rest)).1 =
            ({ job_id := j, service_order_number := clean_int_str r0.SO_NO,
               date_entered :=
                 (clean_date_service pdParse r0.DATE_ENTER).getD sentinelDate } ::
              (prepare_service_data pdParse jobMap rest).1) from by
          simp [prepare_service_data, hjm, hz]] at hmem
        rcases List.mem_cons.mp hmem with rfl | hmem'
        · refine ⟨r0, List.mem_cons_self _ _, fun hn => ?_, fun d hd => ?_⟩
          · show (clean_date_service pdParse r0.DATE_ENTER).getD sentinelDate = sentinelDate
            rw [hn]
            rfl
          · show (clean_date_service pdParse r0.DATE_ENTER).getD sentinelDate = d
            rw [hd]
            rfl
        · obtain ⟨rr, hrr, hok⟩ := ih h hmem'
          exact ⟨rr, List.mem_cons_of_mem _ hrr, hok⟩

/-- Witness for C10 at a concrete input: a NaN DATE_ENTER yields the
sentinel date in the prepared header. -/
theorem c10_witness :
    ∃ r ∈ [SRow.mk (Cell.str "9") (Cell.str "5") Cell.nan],
      (clean_date_service (fun _ => none) r.DATE_ENTER = none →
        (ServiceHeader.mk 7 (some "9") sentinelDate).date_entered = sentinelDate) ∧
      (∀ d, clean_date_service (fun _ => none) r.DATE_ENTER = some d →
        (ServiceHeader.mk 7 (some "9") sentinelDate).date_entered = d) :=
  c10_date_entered (fun _ => none) [("5", 7)]
    [SRow.mk (Cell.str "9") (Cell.str "5") Cell.nan]
    (ServiceHeader.mk 7 (some "9") sentinelDate) (by decide)

/-- Claim C8: in a complete run of the bulk loader, every record that
produced a job yields a job row whose sales-order, production and
installation references point at the rows generated for that same
record — its own column payloads, its own cabinet key `cabStart + i` —
and its purchase-tracking row carries its own purchase payload, despite
the sales orders having been split into without/with-`created_at`
batches and re-merged by original position. -/
theorem c8_alignment (recs : List BRec) (cabStart soStart prodStart instStart jobStart : Nat)
    (i : Nat) (hi : i < recs.length) (b : String)
    (hb : (recs.get ⟨i, hi⟩).jobBase = some b) :
    ∃ jr : JobRow,
      tableFind (runBulk recs cabStart soStart prodStart instStart jobStart none).jobs
          (jobStart + countPrior hasJob recs i) = some jr ∧
      jr.job_base_number = b ∧
      jr.job_suffix = (recs.get ⟨i, hi⟩).jobSuffix ∧
      tableFind (runBulk recs cabStart soStart prodStart instStart jobStart
          none).sales_orders jr.sales_order_id =
        some (SORow.mk (recs.get ⟨i, hi⟩).soPayload (cabStart + i)
          (recs.get ⟨i, hi⟩).createdAt) ∧
      tableFind (runBulk recs cabStart soStart prodStart instStart jobStart none).cabinets
          (cabStart + i) = some (recs.get ⟨i, hi⟩).cabPayload ∧
      tableFind (runBulk recs cabStart soStart prodStart instStart jobStart
          none).production_schedule jr.prod_id = some (recs.get ⟨i, hi⟩).prodPayload ∧
      tableFind (runBulk recs cabStart soStart prodStart instStart jobStart
          none).installation jr.installation_id = some (recs.get ⟨i, hi⟩).instPayload ∧
      PurchRow.mk (jobStart + countPrior hasJob recs i) (recs.get ⟨i, hi⟩).purchPayload ∈
        (runBulk recs cabStart soStart prodStart instStart jobStart
          none).purchase_tracking := by
  have hPj : hasJob (recs.get ⟨i, hi⟩) = true := by
    show (recs.get ⟨i, hi⟩).jobBase.isSome = true
    rw [hb]
    rfl
  obtain ⟨hqlt, hqget⟩ := aux_enumFrom_filter_get hasJob recs 0 i hi hPj
  rw [Nat.zero_add] at hqget
  -- the job position map and the two satellite position maps all agree
  have hfpJ := aux_findPos_idxWhereFrom hasJob recs 0 i hi
  rw [Nat.zero_add, if_pos hPj] at hfpJ
  -- the jobs table entry
  have hdbJ : (runBulk recs cabStart soStart prodStart instStart jobStart none).jobs =
      zipIds jobStart (jobRowsOf recs soStart prodStart instStart) := by
    simp [runBulk, failLevel]
  have hlenJ : countPrior hasJob recs i <
      (jobRowsOf recs soStart prodStart instStart).length := by
    simpa [jobRowsOf] using hqlt
  have hfindJ := aux_tableFind_zipIds (jobRowsOf recs soStart prodStart instStart)
    jobStart (countPrior hasJob recs i) hlenJ
  have hjr : (jobRowsOf recs soStart prodStart instStart).get
      ⟨countPrior hasJob recs i, hlenJ⟩ =
      JobRow.mk ((recs.get ⟨i, hi⟩).jobBase.getD "") (recs.get ⟨i, hi⟩).jobSuffix
        ((soIdAt recs soStart i).getD 0) ((prodIdAt recs prodStart i).getD 0)
        ((instIdAt recs instStart i).getD 0) := by
    simp only [jobRowsOf]
    rw [List.get_map]
    exact congrArg (fun p => JobRow.mk (p.2.jobBase.getD "") p.2.jobSuffix
      ((soIdAt recs soStart p.1).getD 0) ((prodIdAt recs prodStart p.1).getD 0)
      ((instIdAt recs instStart p.1).getD 0)) hqget
  refine ⟨JobRow.mk ((recs.get ⟨i, hi⟩).jobBase.getD "") (recs.get ⟨i, hi⟩).jobSuffix
      ((soIdAt recs soStart i).getD 0) ((prodIdAt recs prodStart i).getD 0)
      ((instIdAt recs instStart i).getD 0), ?_, ?_, rfl, ?_, ?_, ?_, ?_, ?_⟩
  · rw [hdbJ, hfindJ, hjr]
  · show (recs.get ⟨i, hi⟩).jobBase.getD "" = b
    rw [hb]
    rfl
  · -- the sales-order reference resolves to this record's own row
    show tableFind (runBulk recs cabStart soStart prodStart instStart jobStart
        none).sales_orders ((soIdAt recs soStart i).getD 0) = _
    have hdbSO : (runBulk recs cabStart soStart prodStart instStart jobStart
        none).sales_orders =
        zipIds soStart (soRowsA recs cabStart) ++
          zipIds (soStart + (soRowsA recs cabStart).length) (soRowsB recs cabStart) := by
      simp [runBulk, failLevel]
    rcases hcr : (recs.get ⟨i, hi⟩).createdAt with _ | t
    · -- without-created_at batch
      have hNC : noCreatedAt (recs.get ⟨i, hi⟩) = true := by
        show (recs.get ⟨i, hi⟩).createdAt.isNone = true
        rw [hcr]
        rfl
      have hfp := aux_findPos_idxWhereFrom noCreatedAt recs 0 i hi
      rw [Nat.zero_add, if_pos hNC] at hfp
      have hso : soIdAt recs soStart i =
          some (soStart + countPrior noCreatedAt recs i) := by
        simp only [soIdAt, idxWhere]
        rw [hfp]
      obtain ⟨hlt1, hget1⟩ := aux_enumFrom_filter_get noCreatedAt recs 0 i hi hNC
      rw [Nat.zero_add] at hget1
      have hlen1 : countPrior noCreatedAt recs i < (soRowsA recs cabStart).length := by
        simpa [soRowsA] using hlt1
      have hrow1 : (soRowsA recs cabStart).get ⟨countPrior noCreatedAt recs i, hlen1⟩ =
          SORow.mk (recs.get ⟨i, hi⟩).soPayload (cabStart + i)
            (recs.get ⟨i, hi⟩).createdAt := by
        simp only [soRowsA]
        rw [List.get_map]
        exact congrArg (soRowOf cabStart) hget1
      have hfindA := aux_tableFind_zipIds (soRowsA recs cabStart) soStart
        (countPrior noCreatedAt recs i) hlen1
      rw [hdbSO, hso, Option.getD_some]
      exact aux_tableFind_append_left _ _ _ _ (by rw [hfindA, hrow1, hcr])
    · -- with-created_at batch
      have hNC : noCreatedAt (recs.get ⟨i, hi⟩) = false := by
        show (recs.get ⟨i, hi⟩).createdAt.isNone = false
        rw [hcr]
        rfl
      have hHC : hasCreatedAt (recs.get ⟨i, hi⟩) = true := by
        show (recs.get ⟨i, hi⟩).createdAt.isSome = true
        rw [hcr]
        rfl
      have hfp1 := aux_findPos_idxWhereFrom noCreatedAt recs 0 i hi
      rw [Nat.zero_add, if_neg (by rw [hNC]; exact Bool.false_ne_true)] at hfp1
      have hfp2 := aux_findPos_idxWhereFrom hasCreatedAt recs 0 i hi
      rw [Nat.zero_add, if_pos hHC] at hfp2
      have hso : soIdAt recs soStart i =
          some (soStart + (idxWhere noCreatedAt recs).length +
            countPrior hasCreatedAt recs i) := by
        simp only [soIdAt, idxWhere]
        rw [hfp1, hfp2]
        rfl
      have hlenEq : (idxWhere noCreatedAt recs).length = (soRowsA recs cabStart).length := by
        simp only [idxWhere]
        rw [aux_idxWhereFrom_length, aux_soRowsA_length]
      obtain ⟨hlt2, hget2⟩ := aux_enumFrom_filter_get hasCreatedAt recs 0 i hi hHC
      rw [Nat.zero_add] at hget2
      have hlen2 : countPrior hasCreatedAt recs i < (soRowsB recs cabStart).length := by
        simpa [soRowsB] using hlt2
      have hrow2 : (soRowsB recs cabStart).get ⟨countPrior hasCreatedAt recs i, hlen2⟩ =
          SORow.mk (recs.get ⟨i, hi⟩).soPayload (cabStart + i)
            (recs.get ⟨i, hi⟩).createdAt := by
        simp only [soRowsB]
        rw [List.get_map]
        exact congrArg (soRowOf cabStart) hget2
      have hfindB := aux_tableFind_zipIds (soRowsB recs cabStart)
        (soStart + (soRowsA recs cabStart).length) (countPrior hasCreatedAt recs i) hlen2
      have hnoneA : tableFind (zipIds soStart (soRowsA recs cabStart))
          ((soStart + (soRowsA recs cabStart).length) +
            countPrior hasCreatedAt recs i) = none := by
        apply aux_tableFind_zipIds_out
        have hzl : (zipIds soStart (soRowsA recs cabStart)).length =
            (soRowsA recs cabStart).length := by
          simp [zipIds]
        omega
      rw [hdbSO, hso, Option.getD_some, hlenEq]
      rw [show soStart + (soRowsA recs cabStart).length + countPrior hasCreatedAt recs i =
        (soStart + (soRowsA recs cabStart).length) + countPrior hasCreatedAt recs i from rfl]
      rw [aux_tableFind_append_right _ _ _ hnoneA, hfindB, hrow2, hcr]
  · -- the cabinet reference
    have hdbC : (runBulk recs cabStart soStart prodStart instStart jobStart
        none).cabinets = zipIds cabStart (cabRowsOf recs) := by
      simp [runBulk, failLevel]
    have hlenC : i < (cabRowsOf recs).length := by simpa [cabRowsOf] using hi
    have hfindC := aux_tableFind_zipIds (cabRowsOf recs) cabStart i hlenC
    have hrowC : (cabRowsOf recs).get ⟨i, hlenC⟩ = (recs.get ⟨i, hi⟩).cabPayload := by
      simp only [cabRowsOf]
      rw [List.get_map]
    rw [hdbC, hfindC, hrowC]
  · -- the production reference
    show tableFind (runBulk recs cabStart soStart prodStart instStart jobStart
        none).production_schedule ((prodIdAt recs prodStart i).getD 0) = _
    have hprodid : prodIdAt recs prodStart i =
        some (prodStart + countPrior hasJob recs i) := by
      simp only [prodIdAt, idxWhere]
      rw [hfpJ]
      rfl
    obtain ⟨hltP, hgetP⟩ := aux_filter_get hasJob recs i hi hPj
    have hdbP : (runBulk recs cabStart soStart prodStart instStart jobStart
        none).production_schedule = zipIds prodStart (prodRowsOf recs) := by
      simp [runBulk, failLevel]
    have heP : prodRowsOf recs = (recs.filter hasJob).map (fun r => r.prodPayload) := by
      simp only [prodRowsOf]
      exact aux_filterMap_if hasJob _ recs
    have hlenP : countPrior hasJob recs i < (prodRowsOf recs).length := by
      rw [heP]
      simpa using hltP
    have hrowP : (prodRowsOf recs).get ⟨countPrior hasJob recs i, hlenP⟩ =
        (recs.get ⟨i, hi⟩).prodPayload := by
      rw [List.get_of_eq heP]
      rw [List.get_map]
      exact congrArg (fun r => r.prodPayload) hgetP
    have hfindP := aux_tableFind_zipIds (prodRowsOf recs) prodStart
      (countPrior hasJob recs i) hlenP
    rw [hdbP, hprodid, Option.getD_some, hfindP, hrowP]
  · -- the installation reference
    show tableFind (runBulk recs cabStart soStart prodStart instStart jobStart
        none).installation ((instIdAt recs instStart i).getD 0) = _
    have hinstid : instIdAt recs instStart i =
        some (instStart + countPrior hasJob recs i) := by
      simp only [instIdAt, idxWhere]
      rw [hfpJ]
      rfl
    obtain ⟨hltP, hgetP⟩ := aux_filter_get hasJob recs i hi hPj
    have hdbI : (runBulk recs cabStart soStart prodStart instStart jobStart
        none).installation = zipIds instStart (instRowsOf recs) := by
      simp [runBulk, failLevel]
    have heI : instRowsOf recs = (recs.filter hasJob).map (fun r => r.instPayload) := by
      simp only [instRowsOf]
      exact aux_filterMap_if hasJob _ recs
    have hlenI : countPrior hasJob recs i < (instRowsOf recs).length := by
      rw [heI]
      simpa using hltP
    have hrowI : (instRowsOf recs).get ⟨countPrior hasJob recs i, hlenI⟩ =
        (recs.get ⟨i, hi⟩).instPayload := by
      rw [List.get_of_eq heI]
      rw [List.get_map]
      exact congrArg (fun r => r.instPayload) hgetP
    have hfindI := aux_tableFind_zipIds (instRowsOf recs) instStart
      (countPrior hasJob recs i) hlenI
    rw [hdbI, hinstid, Option.getD_some, hfindI, hrowI]
  · -- the purchase-tracking row
    have hdbPu : (runBulk recs cabStart soStart prodStart instStart jobStart
        none).purchase_tracking = purchRowsOf recs jobStart := by
      simp [runBulk, failLevel]
    have hlenF : countPrior hasJob recs i <
        ((recs.enum).filter (fun p => hasJob p.2)).length := hqlt
    have hlenPu : countPrior hasJob recs i < (purchRowsOf recs jobStart).length := by
      simp only [purchRowsOf, List.length_map, List.enum_length]
      exact hlenF
    have henum : (((recs.enum).filter (fun p => hasJob p.2)).enum).get
        ⟨countPrior hasJob recs i, by rw [List.enum_length]; exact hlenF⟩ =
        (countPrior hasJob recs i,
          ((recs.enum).filter (fun p => hasJob p.2)).get
            ⟨countPrior hasJob recs i, hlenF⟩) := by
      simp [List.get_eq_getElem, List.getElem_enum]
    have hrowPu : (purchRowsOf recs jobStart).get ⟨countPrior hasJob recs i, hlenPu⟩ =
        PurchRow.mk (jobStart + countPrior hasJob recs i)
          (recs.get ⟨i, hi⟩).purchPayload := by
      simp only [purchRowsOf]
      rw [List.get_map]
      rw [henum]
      show PurchRow.mk (jobStart + countPrior hasJob recs i) _ = _
      rw [show (((recs.enum).filter (fun p => hasJob p.2)).get
        ⟨countPrior hasJob recs i, hlenF⟩) = (i, recs.get ⟨i, hi⟩) from hqget]
    rw [hdbPu, ← hrowPu]
    exact List.get_mem _ _ _

/-- Witness for C8's alignment theorem at a concrete input: three
records where the first carries a creation timestamp and a job, the
second is a quote only, and the third has a job but no creation
timestamp — so the split reorders presentation while the keys still
re-associate by original position. -/
theorem c8_witness :
    ∃ jr : JobRow,
      tableFind (runBulk [⟨some 11, some "700", some "S1", 1, 2, 3, 4, 5⟩,
          ⟨none, none, none, 6, 7, 8, 9, 10⟩,
          ⟨none, some "701", none, 11, 12, 13, 14, 15⟩] 100 200 300 400 500 none).jobs
          (500 + countPrior hasJob [⟨some 11, some "700", some "S1", 1, 2, 3, 4, 5⟩,
            ⟨none, none, none, 6, 7, 8, 9, 10⟩,
            ⟨none, some "701", none, 11, 12, 13, 14, 15⟩] 0) = some jr ∧
      jr.job_base_number = "700" ∧
      jr.job_suffix = (([⟨some 11, some "700", some "S1", 1, 2, 3, 4, 5⟩,
          ⟨none, none, none, 6, 7, 8, 9, 10⟩,
          ⟨none, some "701", none, 11, 12, 13, 14, 15⟩] : List BRec).get
            ⟨0, by decide⟩).jobSuffix ∧
      tableFind (runBulk [⟨some 11, some "700", some "S1", 1, 2, 3, 4, 5⟩,
          ⟨none, none, none, 6, 7, 8, 9, 10⟩,
          ⟨none, some "701", none, 11, 12, 13, 14, 15⟩] 100 200 300 400 500
            none).sales_orders jr.sales_order_id =
        some (SORow.mk 2 (100 + 0) (some 11)) ∧
      tableFind (runBulk [⟨some 11, some "700", some "S1", 1, 2, 3, 4, 5⟩,
          ⟨none, none, none, 6, 7, 8, 9, 10⟩,
          ⟨none, some "701", none, 11, 12, 13, 14, 15⟩] 100 200 300 400 500
            none).cabinets (100 + 0) = some 1 ∧
      tableFind (runBulk [⟨some 11, some "700", some "S1", 1, 2, 3, 4, 5⟩,
          ⟨none, none, none, 6, 7, 8, 9, 10⟩,
          ⟨none, some "701", none, 11, 12, 13, 14, 15⟩] 100 200 300 400 500
            none).production_schedule jr.prod_id = some 3 ∧
      tableFind (runBulk [⟨some 11, some "700", some "S1", 1, 2, 3, 4, 5⟩,
          ⟨none, none, none, 6, 7, 8, 9, 10⟩,
          ⟨none, some "701", none, 11, 12, 13, 14, 15⟩] 100 200 300 400 500
            none).installation jr.installation_id = some 4 ∧
      PurchRow.mk (500 + countPrior hasJob [⟨some 11, some "700", some "S1", 1, 2, 3, 4, 5⟩,
          ⟨none, none, none, 6, 7, 8, 9, 10⟩,
          ⟨none, some "701", none, 11, 12, 13, 14, 15⟩] 0) 5 ∈
        (runBulk [⟨some 11, some "700", some "S1", 1, 2, 3, 4, 5⟩,
          ⟨none, none, none, 6, 7, 8, 9, 10⟩,
          ⟨none, some "701", none, 11, 12, 13, 14, 15⟩] 100 200 300 400 500
            none).purchase_tracking :=
  c8_alignment [⟨some 11, some "700", some "S1", 1, 2, 3, 4, 5⟩,
    ⟨none, none, none, 6, 7, 8, 9, 10⟩,
    ⟨none, some "701", none, 11, 12, 13, 14, 15⟩] 100 200 300 400 500 0 (by decide)
    "700" (by decide)

end Wckc
